import Mathlib

/-!
Verification of the staged-import/commit engine of the XLSCSV2SQLv2 repository
(`src/db.worker.ts` together with its caller `src/App.tsx`).

The worker sources contain three revisions of `db.worker.ts`, concatenated:
revision 1 (the SQLite-backed `handleImportCsv` with `getUniqueTableName`,
`DROP TABLE IF EXISTS`, `CREATE TABLE`, a `BEGIN TRANSACTION` / `ROLLBACK`
insert loop and `createAndPostNode`) and revisions 2 and 3 (the preview-only
`handleImportCsv` that posts a node holding `data.slice(0, 5)` and does not
touch the engine).  `App.tsx` likewise appears in two revisions; the second
posts `UPLOAD_TO_SQLITE` with the plain node object and `DROP_TABLE` with a
table name.  The worker handlers for `UPLOAD_TO_SQLITE` and `DROP_TABLE` are
not part of the sources and are modelled from the specification where needed
(each such definition is marked `Modelled from the spec:`).

The embedding below is shallow: the in-memory SQLite engine is a list of
tables, a parsed CSV row is an association list from field name to raw cell
string, and the TypeScript handlers become Lean functions on these data.
-/

namespace XLSCSV2SQL

/-! ### Injectivity of `Nat.repr`

`getUniqueTableName` builds candidate names `baseName_1`, `baseName_2`, … with
JavaScript number-to-string conversion, modelled by `Nat.repr`.  Its
termination on a finite catalog rests on those candidates being pairwise
distinct, hence on `Nat.repr` being injective, proved here from the core
definition via an evaluation function on digit lists. -/

/-- Numeric value of a decimal digit character (inverse of `Nat.digitChar`
on `0..9`). -/
def digitVal (c : Char) : Nat := c.toNat - 48

/-- Value of a decimal digit string, most significant digit first. -/
def digitsVal (l : List Char) : Nat := l.foldl (fun a c => 10 * a + digitVal c) 0

theorem digitVal_digitChar {d : Nat} (hd : d < 10) : digitVal (Nat.digitChar d) = d := by
  interval_cases d <;> rfl

theorem toDigitsCore_append (b : Nat) :
    ∀ (fuel n : Nat) (ds : List Char),
      Nat.toDigitsCore b fuel n ds = Nat.toDigitsCore b fuel n [] ++ ds := by
  intro fuel
  induction fuel with
  | zero => intro n ds; rfl
  | succ f ih =>
    intro n ds
    simp only [Nat.toDigitsCore]
    by_cases h : n / b = 0
    · simp [h]
    · simp only [h, if_false]
      rw [ih (n / b) (Nat.digitChar (n % b) :: ds), ih (n / b) [Nat.digitChar (n % b)]]
      simp

theorem toDigitsCore_fuel :
    ∀ (n f₁ f₂ : Nat), n < f₁ → n < f₂ →
      Nat.toDigitsCore 10 f₁ n [] = Nat.toDigitsCore 10 f₂ n [] := by
  intro n
  induction n using Nat.strong_induction_on with
  | _ n ih =>
    intro f₁ f₂ h₁ h₂
    cases f₁ with
    | zero => omega
    | succ g₁ =>
      cases f₂ with
      | zero => omega
      | succ g₂ =>
        simp only [Nat.toDigitsCore]
        by_cases h : n / 10 = 0
        · simp [h]
        · simp only [h, if_false]
          have hn : 0 < n := by
            rcases Nat.eq_zero_or_pos n with h0 | h0
            · subst h0; simp at h
            · exact h0
          have hdiv : n / 10 < n := Nat.div_lt_self hn (by norm_num)
          rw [toDigitsCore_append 10 g₁, toDigitsCore_append 10 g₂,
            ih (n / 10) hdiv g₁ g₂ (by omega) (by omega)]

/-- The decimal digit list of `n` as produced by `Nat.repr`. -/
def digitsOf (n : Nat) : List Char := Nat.toDigits 10 n

theorem digitsOf_small {n : Nat} (h : n < 10) : digitsOf n = [Nat.digitChar n] := by
  simp only [digitsOf, Nat.toDigits, Nat.toDigitsCore, Nat.div_eq_of_lt h, if_pos,
    Nat.mod_eq_of_lt h]

theorem digitsOf_step {n : Nat} (h : 10 ≤ n) :
    digitsOf n = digitsOf (n / 10) ++ [Nat.digitChar (n % 10)] := by
  have hdiv : n / 10 ≠ 0 := by
    intro h0
    have := Nat.div_eq_of_lt (by omega : n < 10)
    omega
  have hlt : n / 10 < n := Nat.div_lt_self (by omega) (by norm_num)
  simp only [digitsOf, Nat.toDigits, Nat.toDigitsCore, hdiv, if_false]
  rw [toDigitsCore_append 10 n (n / 10) [Nat.digitChar (n % 10)]]
  congr 1
  exact toDigitsCore_fuel (n / 10) n (n / 10 + 1) hlt (Nat.lt_succ_self _)

theorem digitsVal_append_single (l : List Char) (c : Char) :
    digitsVal (l ++ [c]) = 10 * digitsVal l + digitVal c := by
  simp [digitsVal, List.foldl_append]

theorem digitsVal_digitsOf : ∀ n : Nat, digitsVal (digitsOf n) = n := by
  intro n
  induction n using Nat.strong_induction_on with
  | _ n ih =>
    by_cases h : n < 10
    · rw [digitsOf_small h]
      simp [digitsVal, digitVal_digitChar h]
    · push_neg at h
      have hlt : n / 10 < n := Nat.div_lt_self (by omega) (by norm_num)
      rw [digitsOf_step h, digitsVal_append_single, ih (n / 10) hlt,
        digitVal_digitChar (Nat.mod_lt n (by norm_num))]
      omega

theorem reprInjective : Function.Injective Nat.repr := by
  intro m n h
  have hd : digitsOf m = digitsOf n := congrArg String.data h
  have := congrArg digitsVal hd
  rwa [digitsVal_digitsOf, digitsVal_digitsOf] at this

theorem repr_ne_nil (n : Nat) : digitsOf n ≠ [] := by
  by_cases h : n < 10
  · rw [digitsOf_small h]; simp
  · push_neg at h
    rw [digitsOf_step h]; simp

theorem repr_length_pos (n : Nat) : 0 < (Nat.repr n).length := by
  show 0 < (digitsOf n).length
  cases hd : digitsOf n with
  | nil => exact absurd hd (repr_ne_nil n)
  | cons c l => simp

/-! ### Data model

The in-memory SQLite engine (`new sqlite3.oo1.DB(":memory:", "c")`) is a list
of tables in creation order; a table has a name, an ordered column list and an
ordered row list.  Cell values bound through the prepared insert are text or
SQL null, so a stored row is a list of `Option String` in column order.  A
parsed CSV row (PapaParse with `header: true`) is an association list from
field name to the raw cell string. -/

/-- A parsed CSV data row: association list from header field to cell text. -/
abbrev Row := List (String × String)

structure Column where
  name : String
  declType : String
deriving Repr, DecidableEq

structure Table where
  name : String
  columns : List Column
  rows : List (List (Option String))
deriving Repr, DecidableEq

structure DBState where
  tables : List Table
deriving Repr, DecidableEq

/-- Catalog listing: the names of all tables, in catalog order. -/
def listTables (db : DBState) : List String := db.tables.map (fun t => t.name)

/-- The probe `SELECT name FROM sqlite_master WHERE type='table' AND name=?`
returns a nonempty result exactly when a table of that name exists. -/
def tableExists (db : DBState) (name : String) : Bool :=
  db.tables.any (fun t => t.name == name)

/-- `DROP TABLE IF EXISTS "name"`: removes the table when present, no-op (and
no error) when absent. -/
def dropTableIfExists (db : DBState) (name : String) : DBState :=
  ⟨db.tables.filter (fun t => t.name != name)⟩

/-- `CREATE TABLE "name" ("h1" TEXT, …)`: appends an empty table whose columns
are the headers in order, each declared TEXT. -/
def createTable (db : DBState) (name : String) (headers : List String) : DBState :=
  ⟨db.tables ++ [⟨name, headers.map (fun h => ⟨h, "TEXT"⟩), []⟩]⟩

/-- Executing the prepared `INSERT INTO "name" (…) VALUES (…)` with bound
values: appends the bound row to the named table. -/
def insertRow (db : DBState) (name : String) (vals : List (Option String)) : DBState :=
  ⟨db.tables.map (fun t => if t.name == name then ⟨t.name, t.columns, t.rows ++ [vals]⟩ else t)⟩

/-- `SELECT COUNT(*) FROM "name"`. -/
def countRows (db : DBState) (name : String) : Nat :=
  match db.tables.find? (fun t => t.name == name) with
  | some t => t.rows.length
  | none => 0

/-- `PRAGMA table_info("name")`: the column list of the named table. -/
def tableSchema (db : DBState) (name : String) : List Column :=
  match db.tables.find? (fun t => t.name == name) with
  | some t => t.columns
  | none => []

/-- The bound value of one cell: `row[h] || null`.  A missing field or the
empty string (the only falsy string in JavaScript) binds SQL null; any other
cell text binds as itself. -/
def bindCell (row : Row) (h : String) : Option String :=
  match row.lookup h with
  | none => none
  | some v => if v == "" then none else some v

/-- The bound parameter list for one row: `headers.map(h => row[h] || null)`. -/
def bindRow (headers : List String) (row : Row) : List (Option String) :=
  headers.map (bindCell row)

/-! ### Identity resolver (`getUniqueTableName`)

The source loops `while (true)`, probing the catalog for the current candidate
name; on a nonempty probe result it moves to `` `${baseName}_${counter}` `` and
increments the counter, on an empty result it returns the candidate, and on a
probe exception it logs and returns the current candidate ("assume the name is
usable to avoid an infinite loop").  The probe is a parameter so that engine
errors can be modelled; the recursion carries fuel, a modelling device only:
with honest probes the loop is proved to return within `catalog size + 1`
steps, and an erroring probe returns at the error. -/

/-- One catalog probe: `Except.error` models a thrown engine error, `Except.ok b`
a successful probe reporting whether the name is taken. -/
abbrev Probe := String → Except Unit Bool

/-- The probe against a live catalog: never throws, reports existence. -/
def honestProbe (db : DBState) : Probe := fun t => Except.ok (tableExists db t)

def getUniqueTableNameAux (probe : Probe) (baseName : String) :
    Nat → String → Nat → Option String
  | 0, _, _ => none
  | fuel + 1, tableName, counter =>
    match probe tableName with
    | Except.error _ => some tableName
    | Except.ok false => some tableName
    | Except.ok true =>
        getUniqueTableNameAux probe baseName fuel
          (baseName ++ "_" ++ Nat.repr counter) (counter + 1)

/-- `getUniqueTableName(baseName)`: starts from the base name with counter 1.
The fuel `db.tables.length + 1` is sufficient for honest probes (proved
below); the `getD` default is never reached on the probe shapes used here. -/
def getUniqueTableName (probe : Probe) (db : DBState) (baseName : String) : String :=
  (getUniqueTableNameAux probe baseName (db.tables.length + 1) baseName 1).getD baseName

/-- The name probed at step `k` of the loop: the base name first, then the
suffixed candidates. -/
def probedName (baseName : String) (k : Nat) : String :=
  if k = 0 then baseName else baseName ++ "_" ++ Nat.repr k

theorem probedName_injective (baseName : String) :
    Function.Injective (probedName baseName) := by
  have hlen : ∀ j : Nat, j ≠ 0 →
      (probedName baseName j).length = baseName.length + 1 + (Nat.repr j).length := by
    intro j hj
    simp only [probedName, hj, if_false, String.length_append]
    rfl
  intro i j hij
  by_cases hi : i = 0 <;> by_cases hj : j = 0
  · omega
  · exfalso
    have h1 : (probedName baseName i).length = baseName.length := by
      simp [probedName, hi]
    have h2 := hlen j hj
    have h3 := repr_length_pos j
    rw [hij] at h1
    omega
  · exfalso
    have h1 : (probedName baseName j).length = baseName.length := by
      simp [probedName, hj]
    have h2 := hlen i hi
    have h3 := repr_length_pos i
    rw [← hij] at h1
    omega
  · simp only [probedName, hi, hj, if_false] at hij
    have hdata := congrArg String.data hij
    simp only [String.data_append] at hdata
    have := List.append_cancel_left hdata
    exact reprInjective (String.ext this)

theorem tableExists_iff_mem (db : DBState) (s : String) :
    tableExists db s = true ↔ s ∈ listTables db := by
  simp only [tableExists, List.any_eq_true, listTables, List.mem_map]
  constructor
  · rintro ⟨t, ht, hname⟩
    exact ⟨t, ht, by simpa using hname⟩
  · rintro ⟨t, ht, hname⟩
    exact ⟨t, ht, by simpa using hname⟩

/-- Pigeonhole: among the first `catalog size + 1` candidate names, at least
one is free — the candidates are pairwise distinct while the catalog is
finite. -/
theorem exists_free_probedName (db : DBState) (baseName : String) :
    ∃ j ≤ db.tables.length, tableExists db (probedName baseName j) = false := by
  by_contra hall
  push_neg at hall
  have htrue : ∀ j ≤ db.tables.length, tableExists db (probedName baseName j) = true := by
    intro j hj
    have := hall j hj
    revert this
    cases tableExists db (probedName baseName j) <;> simp
  set L := db.tables.length with hL
  set cands := (List.range (L + 1)).map (probedName baseName) with hcands
  have hnodup : cands.Nodup :=
    (List.nodup_range (L + 1)).map (probedName_injective baseName)
  have hsub : cands ⊆ listTables db := by
    intro s hs
    rw [hcands, List.mem_map] at hs
    obtain ⟨j, hj, rfl⟩ := hs
    rw [List.mem_range] at hj
    exact (tableExists_iff_mem db _).mp (htrue j (by omega))
  have hlen : cands.length ≤ (listTables db).length :=
    (List.subperm_of_subset hnodup hsub).length_le
  have h1 : cands.length = L + 1 := by simp [hcands]
  have h2 : (listTables db).length = L := by simp [listTables, hL]
  omega

theorem getUniqueTableNameAux_terminates (db : DBState) (baseName : String) :
    ∀ (fuel k : Nat),
      (∃ j, k ≤ j ∧ j < k + fuel ∧ tableExists db (probedName baseName j) = false) →
      ∃ r, getUniqueTableNameAux (honestProbe db) baseName fuel
          (probedName baseName k) (k + 1) = some r := by
  intro fuel
  induction fuel with
  | zero =>
    intro k ⟨j, h1, h2, _⟩
    omega
  | succ f ih =>
    intro k ⟨j, h1, h2, hfree⟩
    simp only [getUniqueTableNameAux, honestProbe]
    cases hcur : tableExists db (probedName baseName k) with
    | false => exact ⟨probedName baseName k, rfl⟩
    | true =>
      have hjk : j ≠ k := by
        intro h
        rw [h, hcur] at hfree
        exact Bool.noConfusion hfree
      have hstep : probedName baseName (k + 1) = baseName ++ "_" ++ Nat.repr (k + 1) := by
        simp [probedName]
      obtain ⟨r, hr⟩ := ih (k + 1) ⟨j, by omega, by omega, hfree⟩
      rw [hstep] at hr
      exact ⟨r, hr⟩

theorem getUniqueTableNameAux_correct (db : DBState) (baseName : String) :
    ∀ (fuel : Nat) (c : String) (n : Nat) (r : String),
      getUniqueTableNameAux (honestProbe db) baseName fuel c n = some r →
      tableExists db r = false := by
  intro fuel
  induction fuel with
  | zero => intro c n r h; exact Option.noConfusion h
  | succ f ih =>
    intro c n r h
    simp only [getUniqueTableNameAux, honestProbe] at h
    cases hcur : tableExists db c with
    | false =>
      rw [hcur] at h
      simp only [Option.some.injEq] at h
      rw [← h]
      exact hcur
    | true =>
      rw [hcur] at h
      exact ih _ _ _ h

theorem getUniqueTableName_returns (db : DBState) (baseName : String) :
    ∃ r, getUniqueTableNameAux (honestProbe db) baseName (db.tables.length + 1)
        baseName 1 = some r := by
  obtain ⟨j, hj, hfree⟩ := exists_free_probedName db baseName
  have h0 : probedName baseName 0 = baseName := by simp [probedName]
  have := getUniqueTableNameAux_terminates db baseName (db.tables.length + 1) 0
    ⟨j, Nat.zero_le j, by omega, hfree⟩
  rwa [h0] at this

/-- The resolved name of an honest resolution never collides with the live
catalog. -/
theorem resolve_not_exists (db : DBState) (baseName : String) :
    tableExists db (getUniqueTableName (honestProbe db) db baseName) = false := by
  obtain ⟨r, hr⟩ := getUniqueTableName_returns db baseName
  rw [getUniqueTableName, hr, Option.getD_some]
  exact getUniqueTableNameAux_correct db baseName _ _ _ _ hr

/-! ### The SQLite-backed `handleImportCsv` (worker revision 1)

Sequence in the source: resolve a unique name, `DROP TABLE IF EXISTS`,
`CREATE TABLE`, then `BEGIN TRANSACTION`, insert every data row in order
(`row[h] || null` per cell), `COMMIT`; any insert error is caught, the
transaction is rolled back (undoing the inserts but not the `CREATE TABLE`,
which ran before `BEGIN`), and the handler returns without posting.  On
success `createAndPostNode` re-queries the schema (`PRAGMA table_info`) and
row count (`SELECT COUNT(*)`) and posts a node.  A failure of an individual
insert cannot arise from these all-TEXT binds themselves, so it is modelled by
an oracle `rowFails` on the row index. -/

/-- The payload of a posted `NODE_CREATED` message in worker revision 1
(position omitted: it is opaque to the engine). -/
structure NodeMeta where
  id : String
  schema : List Column
  rowCount : Nat
deriving Repr, DecidableEq

/-- Result of running the revision-1 import handler: the engine state, the
posted node if any, and whether the handler aborted with an uncaught fault. -/
structure ImportOutcome where
  db : DBState
  posted : Option NodeMeta
  fault : Bool
deriving Repr, DecidableEq

/-- The insert loop inside the transaction: executes the prepared insert for
each row in order; `rowFails idx` models an engine error on the insert of the
row at that index, which aborts the loop. -/
def runInserts (rowFails : Nat → Bool) (tn : String) (headers : List String) :
    DBState → List Row → Nat → Except Unit DBState
  | db, [], _ => Except.ok db
  | db, row :: rest, idx =>
    if rowFails idx then Except.error ()
    else runInserts rowFails tn headers (insertRow db tn (bindRow headers row)) rest (idx + 1)

/-- Worker revision 1 `handleImportCsv`, after PapaParse: `headersOpt` is
`parseResult.meta.fields` (`none` when PapaParse yields no field list, in
which case `headers.map` in the CREATE TABLE template throws an uncaught
fault — after the `DROP TABLE IF EXISTS` has already run) and `data` the
parsed data rows. -/
def handleImportCsvV1 (probe : Probe) (rowFails : Nat → Bool) (db : DBState)
    (baseName : String) (headersOpt : Option (List String)) (data : List Row) :
    ImportOutcome :=
  let tn := getUniqueTableName probe db baseName
  let db1 := dropTableIfExists db tn
  match headersOpt with
  | none => ⟨db1, none, true⟩
  | some headers =>
    let db2 := createTable db1 tn headers
    match runInserts rowFails tn headers db2 data 0 with
    | Except.error _ => ⟨db2, none, false⟩
    | Except.ok db3 => ⟨db3, some ⟨tn, tableSchema db3 tn, countRows db3 tn⟩, false⟩

theorem runInserts_error (rowFails : Nat → Bool) (tn : String) (headers : List String) :
    ∀ (data : List Row) (db : DBState) (idx : Nat),
      (∃ k, k < data.length ∧ rowFails (idx + k) = true) →
      runInserts rowFails tn headers db data idx = Except.error () := by
  intro data
  induction data with
  | nil =>
    intro db idx ⟨k, hk, _⟩
    simp at hk
  | cons row rest ih =>
    intro db idx ⟨k, hk, hfail⟩
    simp only [runInserts]
    by_cases hcur : rowFails idx = true
    · rw [if_pos hcur]
    · rw [if_neg hcur]
      cases k with
      | zero =>
        rw [Nat.add_zero] at hfail
        exact absurd hfail hcur
      | succ k =>
        refine ih _ (idx + 1) ⟨k, by simpa using hk, ?_⟩
        rw [show idx + 1 + k = idx + (k + 1) from by omega]
        exact hfail

theorem runInserts_noFail (rowFails : Nat → Bool) (tn : String) (headers : List String)
    (hf : ∀ i, rowFails i = false) :
    ∀ (data : List Row) (db : DBState) (idx : Nat),
      runInserts rowFails tn headers db data idx =
        Except.ok (data.foldl (fun d r => insertRow d tn (bindRow headers r)) db) := by
  intro data
  induction data with
  | nil => intro db idx; rfl
  | cons row rest ih =>
    intro db idx
    simp only [runInserts, List.foldl_cons]
    have hcond : ¬ (rowFails idx = true) := by rw [hf idx]; simp
    rw [if_neg hcond]
    exact ih _ _

/-- Effect of the insert loop on a catalog whose last table is the fresh
destination: only that table gains rows, in input order. -/
theorem foldl_insertRow_spec (tn : String) (headers : List String) :
    ∀ (data : List Row) (ts : List Table) (cols : List Column)
      (rs : List (List (Option String))),
      (∀ t ∈ ts, t.name ≠ tn) →
      data.foldl (fun d r => insertRow d tn (bindRow headers r)) ⟨ts ++ [⟨tn, cols, rs⟩]⟩ =
        ⟨ts ++ [⟨tn, cols, rs ++ data.map (bindRow headers)⟩]⟩ := by
  intro data
  induction data with
  | nil => intro ts cols rs _; simp
  | cons row rest ih =>
    intro ts cols rs hts
    have hstep : insertRow ⟨ts ++ [⟨tn, cols, rs⟩]⟩ tn (bindRow headers row) =
        ⟨ts ++ [⟨tn, cols, rs ++ [bindRow headers row]⟩]⟩ := by
      simp only [insertRow, List.map_append]
      congr 1
      congr 1
      · have : ∀ t ∈ ts,
            (if t.name == tn then Table.mk t.name t.columns (t.rows ++ [bindRow headers row])
             else t) = t := by
          intro t ht
          rw [if_neg (by simpa using hts t ht)]
        rw [List.map_congr_left this, List.map_id']
      · simp
    rw [List.foldl_cons, hstep, ih ts cols (rs ++ [bindRow headers row]) hts]
    simp

theorem names_ne_of_not_exists {db : DBState} {tn : String}
    (h : tableExists db tn = false) : ∀ t ∈ db.tables, t.name ≠ tn := by
  intro t ht heq
  have : tableExists db tn = true := by
    simp only [tableExists, List.any_eq_true]
    exact ⟨t, ht, by simp [heq]⟩
  rw [h] at this
  exact Bool.noConfusion this

theorem dropTableIfExists_of_not_exists {db : DBState} {tn : String}
    (h : tableExists db tn = false) : dropTableIfExists db tn = db := by
  have hne := names_ne_of_not_exists h
  simp only [dropTableIfExists]
  congr 1
  apply List.filter_eq_self.mpr
  intro t ht
  simpa using hne t ht

theorem find?_fresh {ts : List Table} {tn : String} (cols : List Column)
    (rs : List (List (Option String))) (hne : ∀ t ∈ ts, t.name ≠ tn) :
    (ts ++ [Table.mk tn cols rs]).find? (fun t => t.name == tn) = some ⟨tn, cols, rs⟩ := by
  rw [List.find?_append]
  have h1 : ts.find? (fun t => t.name == tn) = none := by
    rw [List.find?_eq_none]
    intro t ht
    simpa using hne t ht
  rw [h1]
  simp

/-- Success path of the revision-1 import handler: with honest probes and no
insert failure, it appends exactly one fresh table — named by the resolver,
columns the headers declared TEXT, rows the bound data rows in order — and
posts a node carrying the re-queried schema and row count. -/
theorem handleImportCsvV1_success (db : DBState) (baseName : String)
    (headers : List String) (data : List Row) (rowFails : Nat → Bool)
    (hf : ∀ i, rowFails i = false) :
    handleImportCsvV1 (honestProbe db) rowFails db baseName (some headers) data =
      ⟨⟨db.tables ++ [⟨getUniqueTableName (honestProbe db) db baseName,
          headers.map (fun h => ⟨h, "TEXT"⟩), data.map (bindRow headers)⟩]⟩,
        some ⟨getUniqueTableName (honestProbe db) db baseName,
          headers.map (fun h => ⟨h, "TEXT"⟩), data.length⟩, false⟩ := by
  have hfree := resolve_not_exists db baseName
  set tn := getUniqueTableName (honestProbe db) db baseName with htn
  have hne := names_ne_of_not_exists hfree
  simp only [handleImportCsvV1, ← htn, dropTableIfExists_of_not_exists hfree]
  rw [runInserts_noFail rowFails tn headers hf data _ 0]
  simp only [createTable]
  rw [foldl_insertRow_spec tn headers data db.tables _ [] hne]
  simp only [List.nil_append, tableSchema, countRows, find?_fresh _ _ hne]
  simp

/-- Failure path of the revision-1 import handler: when some insert fails,
the rollback restores the state at `BEGIN TRANSACTION`, i.e. just after
`CREATE TABLE`, and nothing is posted. -/
theorem handleImportCsvV1_rollback (db : DBState) (baseName : String)
    (headers : List String) (data : List Row) (rowFails : Nat → Bool)
    (hfail : ∃ k, k < data.length ∧ rowFails k = true) :
    handleImportCsvV1 (honestProbe db) rowFails db baseName (some headers) data =
      ⟨createTable db (getUniqueTableName (honestProbe db) db baseName) headers,
        none, false⟩ := by
  have hfree := resolve_not_exists db baseName
  set tn := getUniqueTableName (honestProbe db) db baseName with htn
  simp only [handleImportCsvV1, ← htn, dropTableIfExists_of_not_exists hfree]
  rw [runInserts_error rowFails tn headers data _ 0 (by simpa using hfail)]

/-! ### The preview-only `handleImportCsv` (worker revisions 2 and 3)

These revisions do not touch the engine: the parsed dataset is turned into a
node whose `rowCount` is the full row count but whose `data` field — the only
row data the node (and hence the main thread, which caches the node and later
sends it back in `UPLOAD_TO_SQLITE`) ever receives — is `data.slice(0, 5)`. -/

/-- The node payload posted by the preview-only import (and cached by
`App.tsx` in its node store); `data` is the `data.slice(0, 5)` preview. -/
structure PreviewNode where
  id : String
  title : String
  schema : List Column
  rowCount : Nat
  data : List Row
deriving Repr, DecidableEq

/-- Worker revisions 2 and 3 `handleImportCsv`: `now` models `Date.now()`;
the node id is `` `${originalTableName}_${Date.now()}` ``.  `none` headers
(PapaParse produced no field list) crashes at `headers.map` before any message
is posted. -/
def handleImportCsvPreview (now : Nat) (baseName : String)
    (headersOpt : Option (List String)) (data : List Row) : Option PreviewNode :=
  match headersOpt with
  | none => none
  | some headers =>
    let tn := baseName ++ "_" ++ Nat.repr now
    some ⟨tn, tn, headers.map (fun h => ⟨h, "TEXT"⟩), data.length, data.take 5⟩

/-- Modelled from the spec: the worker handler for the `UPLOAD_TO_SQLITE`
message is not among these sources — only its caller `handleUploadToSQLite`
in `App.tsx`, which posts the plain node object, is.  Per §4.4 the commit
writer creates the destination table from the supplied schema verbatim and
binds and inserts every row of the dataset it receives, in order, then
re-queries the engine for the authoritative row count and returns it. -/
def handleUploadToSQLite (db : DBState) (node : PreviewNode) : DBState × Nat :=
  let headers := node.schema.map (fun c => c.name)
  let db1 := createTable db node.id headers
  let db2 := node.data.foldl (fun d r => insertRow d node.id (bindRow headers r)) db1
  (db2, countRows db2 node.id)

/-! ### Message router (worker revision 1) -/

/-- Messages posted back to the main thread.  `engineUnavailable` is the
structured reject-with-error response that §4.7 of the specification requires
while the engine is initializing or failed; it is part of the claim
vocabulary and the dispatch model shows where the source does or does not
produce it. -/
inductive OutMsg where
  | nodeCreated (id : String) (schema : List Column) (rowCount : Nat)
  | csvExported (tableName : String)
  | databaseExported
  | tableList (names : List String)
  | engineUnavailable
deriving Repr, DecidableEq

/-- The inbound messages of the revision-1 worker `self.onmessage` switch. -/
inductive WorkerMsg where
  | importCsv (baseName : String) (headersOpt : Option (List String)) (data : List Row)
  | createTestTable
  | updatePosition
  | exportTableCsv (tableName : String)
  | exportDatabase
  | unknown (msgType : String)
deriving Repr, DecidableEq

/-- Result of dispatching one message: the engine handle afterwards (`none`
while the engine is absent, i.e. `Initializing` or `Failed`), the messages
posted back, and whether the handler died on an uncaught fault. -/
structure DispatchOutcome where
  engine : Option DBState
  out : List OutMsg
  fault : Bool
deriving Repr, DecidableEq

/-- The dummy schema of `handleCreateTestTable`. -/
def testSchema : List Column := [⟨"X", "TEXT"⟩, ⟨"Y", "TEXT"⟩, ⟨"Z", "TEXT"⟩]

/-- Revision-1 `self.onmessage`: dispatches to the handler switch without any
readiness check.  With the engine absent (`db === null`): `IMPORT_CSV` has its
catalog probe throw inside `getUniqueTableName` (caught there, returning the
base name) and then dies uncaught on the `DROP TABLE IF EXISTS` exec;
`CREATE_TEST_TABLE` never touches the engine and posts its node normally;
`UPDATE_POSITION` is a no-op; `EXPORT_TABLE_CSV` and `EXPORT_DATABASE` die
uncaught on their first engine access; unknown types are logged and ignored. -/
def dispatchV1 (now : Nat) (engine : Option DBState) (msg : WorkerMsg) : DispatchOutcome :=
  match msg, engine with
  | WorkerMsg.importCsv _ _ _, none => ⟨none, [], true⟩
  | WorkerMsg.importCsv baseName headersOpt data, some db =>
    let o := handleImportCsvV1 (honestProbe db) (fun _ => false) db baseName headersOpt data
    ⟨some o.db,
      (o.posted.map (fun nm => OutMsg.nodeCreated nm.id nm.schema nm.rowCount)).toList,
      o.fault⟩
  | WorkerMsg.createTestTable, e =>
    ⟨e, [OutMsg.nodeCreated ("test_table_" ++ Nat.repr now) testSchema 5], false⟩
  | WorkerMsg.updatePosition, e => ⟨e, [], false⟩
  | WorkerMsg.exportTableCsv _, none => ⟨none, [], true⟩
  | WorkerMsg.exportTableCsv tableName, some db => ⟨some db, [OutMsg.csvExported tableName], false⟩
  | WorkerMsg.exportDatabase, none => ⟨none, [], true⟩
  | WorkerMsg.exportDatabase, some db => ⟨some db, [OutMsg.databaseExported], false⟩
  | WorkerMsg.unknown _, e => ⟨e, [], false⟩

/-- Modelled from the spec: the worker handler for the `DROP_TABLE` message is
not among these sources — only its caller `handleDeleteTable` in `App.tsx`,
which posts `DROP_TABLE` with the table name, is.  Per §4.5 it drops the
table unconditionally if present (`DROP TABLE IF EXISTS` semantics, no error
when absent) and on success posts the refreshed table list. -/
def handleDropTable (db : DBState) (tableName : String) : DBState × List OutMsg :=
  let db1 := dropTableIfExists db tableName
  (db1, [OutMsg.tableList (listTables db1)])

/-! ### Concrete test vectors -/

/-- A 6-row, 1-column parsed dataset (more rows than the 5-row preview). -/
def csv6 : List Row :=
  [[("a", "1")], [("a", "2")], [("a", "3")], [("a", "4")], [("a", "5")], [("a", "6")]]

/-- The node the preview-only import stages for `csv6` under base name `t` at
time 0: `rowCount` 6 but only the first 5 rows of data. -/
def previewNode6 : PreviewNode :=
  ⟨"t_0", "t_0", [⟨"a", "TEXT"⟩], 6,
    [[("a", "1")], [("a", "2")], [("a", "3")], [("a", "4")], [("a", "5")]]⟩

/-- A catalog holding one committed table `sales` with one row. -/
def salesDB : DBState := ⟨[⟨"sales", [⟨"a", "TEXT"⟩], [[some "1"]]⟩]⟩

/-! ### Claim theorems -/

/-- C1: the claim says commit/upload writes all N staged rows, never only the
5-row preview slice.  Evaluating the code at a 6-row dataset: the preview-only
handler stages a node whose `data` is only the first 5 rows, and the
commit/upload of that node writes 5 rows into the engine, not the 6 the node's
`rowCount` reports — the code commits exactly the preview slice. -/
theorem c1_upload_commits_only_preview_slice :
    csv6.length = 6 ∧
    handleImportCsvPreview 0 "t" (some ["a"]) csv6 = some previewNode6 ∧
    previewNode6.rowCount = 6 ∧
    (handleUploadToSQLite ⟨[]⟩ previewNode6).2 = 5 ∧
    (handleUploadToSQLite ⟨[]⟩ previewNode6).2 ≠ previewNode6.rowCount := by
  decide

/-- C2: if the insert of any row fails, the whole transaction is rolled back
before the error is surfaced: nothing is posted, no fault escapes, and the
destination table is exactly what `CREATE TABLE` produced — present, with 0
rows. -/
theorem c2_rollback_leaves_created_table_empty (db : DBState) (baseName : String)
    (headers : List String) (data : List Row) (rowFails : Nat → Bool)
    (hfail : ∃ k, k < data.length ∧ rowFails k = true) :
    (handleImportCsvV1 (honestProbe db) rowFails db baseName (some headers) data).posted = none ∧
    (handleImportCsvV1 (honestProbe db) rowFails db baseName (some headers) data).db =
      createTable db (getUniqueTableName (honestProbe db) db baseName) headers ∧
    tableExists (handleImportCsvV1 (honestProbe db) rowFails db baseName (some headers) data).db
      (getUniqueTableName (honestProbe db) db baseName) = true ∧
    countRows (handleImportCsvV1 (honestProbe db) rowFails db baseName (some headers) data).db
      (getUniqueTableName (honestProbe db) db baseName) = 0 := by
  have hfree := resolve_not_exists db baseName
  have hne := names_ne_of_not_exists hfree
  rw [handleImportCsvV1_rollback db baseName headers data rowFails hfail]
  refine ⟨rfl, rfl, ?_, ?_⟩
  · simp [tableExists, createTable]
  · simp [countRows, createTable, find?_fresh _ _ hne]

/-- Witness for C2 at a concrete failing input: a 1-row dataset whose only
insert fails. -/
theorem c2_rollback_witness :
    (∃ k, k < ([[("a", "x")]] : List Row).length ∧ (fun _ : Nat => true) k = true) ∧
    ((handleImportCsvV1 (honestProbe ⟨[]⟩) (fun _ => true) ⟨[]⟩ "t"
        (some ["a"]) [[("a", "x")]]).posted = none ∧
      (handleImportCsvV1 (honestProbe ⟨[]⟩) (fun _ => true) ⟨[]⟩ "t"
        (some ["a"]) [[("a", "x")]]).db =
        createTable ⟨[]⟩ (getUniqueTableName (honestProbe ⟨[]⟩) ⟨[]⟩ "t") ["a"] ∧
      tableExists (handleImportCsvV1 (honestProbe ⟨[]⟩) (fun _ => true) ⟨[]⟩ "t"
        (some ["a"]) [[("a", "x")]]).db (getUniqueTableName (honestProbe ⟨[]⟩) ⟨[]⟩ "t") = true ∧
      countRows (handleImportCsvV1 (honestProbe ⟨[]⟩) (fun _ => true) ⟨[]⟩ "t"
        (some ["a"]) [[("a", "x")]]).db (getUniqueTableName (honestProbe ⟨[]⟩) ⟨[]⟩ "t") = 0) :=
  ⟨⟨0, by decide, rfl⟩,
    c2_rollback_leaves_created_table_empty ⟨[]⟩ "t" ["a"] [[("a", "x")]] (fun _ => true)
      ⟨0, by decide, rfl⟩⟩

/-- C3 counterexample: the claim says the staged (cached) entry holds exactly
N rows.  For the 6-row dataset the only staged artifact — the posted node,
which the main thread caches and later hands to the commit path — holds 5
rows, not 6. -/
theorem c3_staged_entry_holds_only_preview :
    handleImportCsvPreview 0 "t" (some ["a"]) csv6 = some previewNode6 ∧
    previewNode6.rowCount = 6 ∧
    previewNode6.data.length = 5 ∧
    previewNode6.data.length ≠ csv6.length := by
  decide

/-- C3 (amended): import yields a preview node with `rowCount = N` and the
first `min 5 N` rows in original order; the staged entry is that same node,
holding only `min 5 N` rows, not N. -/
theorem c3_preview_record_amended (now : Nat) (baseName : String)
    (headers : List String) (data : List Row) :
    handleImportCsvPreview now baseName (some headers) data =
      some ⟨baseName ++ "_" ++ Nat.repr now, baseName ++ "_" ++ Nat.repr now,
        headers.map (fun h => ⟨h, "TEXT"⟩), data.length, data.take 5⟩ ∧
    (data.take 5).length = min 5 data.length := by
  exact ⟨rfl, by simp⟩

/-- C4: the probing resolver returns a name absent from the catalog, and when
the base name is taken while its `_1` variant is free, it returns exactly
`baseName_1` (the loop probes the base name first, then the suffixes in
increasing order). -/
theorem c4_resolver_returns_fresh_name (db : DBState) (baseName : String) :
    tableExists db (getUniqueTableName (honestProbe db) db baseName) = false ∧
    (tableExists db baseName = true → tableExists db (baseName ++ "_1") = false →
      getUniqueTableName (honestProbe db) db baseName = baseName ++ "_1") := by
  constructor
  · exact resolve_not_exists db baseName
  · intro hbase hfree
    have hne : db.tables ≠ [] := by
      intro h
      rw [tableExists, h] at hbase
      simp at hbase
    obtain ⟨m, hm⟩ : ∃ m, db.tables.length = m + 1 := by
      cases hl : db.tables with
      | nil => exact absurd hl hne
      | cons a l => exact ⟨l.length, by simp⟩
    rw [getUniqueTableName, hm]
    have hcand : baseName ++ "_" ++ Nat.repr 1 = baseName ++ "_1" := by
      rw [String.append_assoc]; rfl
    simp only [getUniqueTableNameAux, honestProbe, hbase, hcand, hfree, Option.getD_some]

/-- Witness for C4: with `sales` committed and `sales_1` free, the resolver
yields `sales_1`. -/
theorem c4_resolver_returns_fresh_name_witness :
    tableExists salesDB "sales" = true ∧
    tableExists salesDB ("sales" ++ "_1") = false ∧
    getUniqueTableName (honestProbe salesDB) salesDB "sales" = "sales" ++ "_1" :=
  ⟨by decide, by decide,
    (c4_resolver_returns_fresh_name salesDB "sales").2 (by decide) (by decide)⟩

/-- C5 counterexample: the claim says that while the engine is absent every
operation other than querying readiness fails with EngineUnavailable and no
handler runs.  Dispatching CREATE_TEST_TABLE with the engine absent runs the
handler to success: it posts a NODE_CREATED response and no EngineUnavailable
error. -/
theorem c5_handler_runs_without_engine :
    (dispatchV1 0 none WorkerMsg.createTestTable).out =
      [OutMsg.nodeCreated ("test_table_" ++ Nat.repr 0) testSchema 5] ∧
    (dispatchV1 0 none WorkerMsg.createTestTable).fault = false ∧
    OutMsg.engineUnavailable ∉ (dispatchV1 0 none WorkerMsg.createTestTable).out := by
  decide

/-- C5 (amended): the revision-1 worker performs no readiness check at all.
With the engine absent, CREATE_TEST_TABLE runs normally and posts its node,
UPDATE_POSITION and unknown types are no-ops, and the engine-touching handlers
(IMPORT_CSV, EXPORT_TABLE_CSV, EXPORT_DATABASE) die on an uncaught raw fault;
no message is queued and no structured EngineUnavailable error is ever
produced. -/
theorem c5_absent_engine_dispatch_amended (now : Nat) (baseName : String)
    (headersOpt : Option (List String)) (data : List Row) (tableName msgType : String) :
    dispatchV1 now none (WorkerMsg.importCsv baseName headersOpt data) = ⟨none, [], true⟩ ∧
    dispatchV1 now none WorkerMsg.createTestTable =
      ⟨none, [OutMsg.nodeCreated ("test_table_" ++ Nat.repr now) testSchema 5], false⟩ ∧
    dispatchV1 now none WorkerMsg.updatePosition = ⟨none, [], false⟩ ∧
    dispatchV1 now none (WorkerMsg.exportTableCsv tableName) = ⟨none, [], true⟩ ∧
    dispatchV1 now none WorkerMsg.exportDatabase = ⟨none, [], true⟩ ∧
    dispatchV1 now none (WorkerMsg.unknown msgType) = ⟨none, [], false⟩ ∧
    (∀ msg : WorkerMsg, OutMsg.engineUnavailable ∉ (dispatchV1 now none msg).out) := by
  refine ⟨rfl, rfl, rfl, rfl, rfl, rfl, ?_⟩
  intro msg
  cases msg <;> simp [dispatchV1]

/-- C6: a missing or blank (empty-string) cell is bound as SQL null, never as
the empty string; a present non-blank cell is bound as its original text; and
the rows actually written by a successful import are exactly the bound rows,
in order. -/
theorem c6_blank_and_missing_bind_null (row : Row) (h : String) (v : String)
    (db : DBState) (baseName : String) (headers : List String) (data : List Row) :
    (row.lookup h = none → bindCell row h = none) ∧
    (row.lookup h = some "" → bindCell row h = none) ∧
    (row.lookup h = some v → v ≠ "" → bindCell row h = some v) ∧
    (handleImportCsvV1 (honestProbe db) (fun _ => false) db baseName
        (some headers) data).db.tables =
      db.tables ++ [⟨getUniqueTableName (honestProbe db) db baseName,
        headers.map (fun hh => ⟨hh, "TEXT"⟩), data.map (bindRow headers)⟩] := by
  refine ⟨?_, ?_, ?_, ?_⟩
  · intro hl; simp [bindCell, hl]
  · intro hl; simp [bindCell, hl]
  · intro hl hv
    have hb : ¬((v == "") = true) := by simpa using hv
    simp [bindCell, hl, hb]
  · rw [handleImportCsvV1_success db baseName headers data (fun _ => false) (fun _ => rfl)]

/-- Witness for C6 on the concrete row `{a: "x", b: ""}`: field `c` is
missing, field `b` is blank, field `a` is present and non-blank. -/
theorem c6_blank_and_missing_bind_null_witness :
    ([("a", "x"), ("b", "")] : Row).lookup "c" = none ∧
    ([("a", "x"), ("b", "")] : Row).lookup "b" = some "" ∧
    ([("a", "x"), ("b", "")] : Row).lookup "a" = some "x" ∧
    bindCell [("a", "x"), ("b", "")] "c" = none ∧
    bindCell [("a", "x"), ("b", "")] "b" = none ∧
    bindCell [("a", "x"), ("b", "")] "a" = some "x" :=
  ⟨by decide, by decide, by decide,
    (c6_blank_and_missing_bind_null [("a", "x"), ("b", "")] "c" "x" ⟨[]⟩ "t" [] []).1
      (by decide),
    (c6_blank_and_missing_bind_null [("a", "x"), ("b", "")] "b" "x" ⟨[]⟩ "t" [] []).2.1
      (by decide),
    (c6_blank_and_missing_bind_null [("a", "x"), ("b", "")] "a" "x" ⟨[]⟩ "t" [] []).2.2.1
      (by decide) (by decide)⟩

/-- C7 counterexample: the claim says an import whose data is empty fails with
ParseError, yielding no preview and no engine table.  On headers `a,b` with
zero data rows the handler instead succeeds: it creates the (empty) table and
posts a preview with rowCount 0. -/
theorem c7_zero_rows_still_creates_table :
    (handleImportCsvV1 (honestProbe ⟨[]⟩) (fun _ => false) ⟨[]⟩ "t"
        (some ["a", "b"]) []).posted =
      some ⟨"t", [⟨"a", "TEXT"⟩, ⟨"b", "TEXT"⟩], 0⟩ ∧
    tableExists (handleImportCsvV1 (honestProbe ⟨[]⟩) (fun _ => false) ⟨[]⟩ "t"
        (some ["a", "b"]) []).db "t" = true := by
  decide

/-- C7 (amended): the handler never produces a structured ParseError.  When
PapaParse yields no field list it dies on an uncaught fault after the (no-op)
DROP, leaving the catalog unchanged, posting nothing; when a header row exists
but zero data rows remain it succeeds, creating an empty table and posting
exactly one preview with rowCount 0. -/
theorem c7_import_failure_modes_amended (db : DBState) (baseName : String)
    (headers : List String) (data : List Row) :
    handleImportCsvV1 (honestProbe db) (fun _ => false) db baseName none data =
      ⟨db, none, true⟩ ∧
    handleImportCsvV1 (honestProbe db) (fun _ => false) db baseName (some headers) [] =
      ⟨⟨db.tables ++ [⟨getUniqueTableName (honestProbe db) db baseName,
          headers.map (fun h => ⟨h, "TEXT"⟩), []⟩]⟩,
        some ⟨getUniqueTableName (honestProbe db) db baseName,
          headers.map (fun h => ⟨h, "TEXT"⟩), 0⟩, false⟩ := by
  constructor
  · simp only [handleImportCsvV1,
      dropTableIfExists_of_not_exists (resolve_not_exists db baseName)]
  · have := handleImportCsvV1_success db baseName headers [] (fun _ => false) (fun _ => rfl)
    simpa using this

/-- C8: dropTable is idempotent — dropping any name (present or absent) twice
gives the same outcome as dropping it once, never raising — and a drop posts
the refreshed table list of the resulting catalog, keeping the caller's view
of listTables consistent. -/
theorem c8_dropTable_idempotent_and_refreshes (db : DBState) (tableName : String) :
    handleDropTable (handleDropTable db tableName).1 tableName = handleDropTable db tableName ∧
    (handleDropTable db tableName).2 =
      [OutMsg.tableList (listTables (handleDropTable db tableName).1)] := by
  constructor
  · have hdd : dropTableIfExists (dropTableIfExists db tableName) tableName =
        dropTableIfExists db tableName := by
      simp only [dropTableIfExists]
      congr 1
      apply List.filter_eq_self.mpr
      intro t ht
      exact (List.mem_filter.mp ht).2
    simp only [handleDropTable, hdd]
  · rfl

/-- C9: the resolver terminates for every base name — a probe that fails with
an engine error makes it return its current candidate at once rather than
looping, and with honest probes it returns within catalog-size + 1 steps
because the catalog is finite. -/
theorem c9_resolver_terminates (probe : Probe) (baseName c : String) (fuel n : Nat)
    (db : DBState) :
    (probe c = Except.error () →
      getUniqueTableNameAux probe baseName (fuel + 1) c n = some c) ∧
    (∃ r, getUniqueTableNameAux (honestProbe db) baseName (db.tables.length + 1)
        baseName 1 = some r) := by
  constructor
  · intro herr
    simp only [getUniqueTableNameAux, herr]
  · exact getUniqueTableName_returns db baseName

/-- Witness for C9 with an always-erroring probe: the resolver returns the
base name in one step. -/
theorem c9_resolver_terminates_witness :
    (fun _ : String => (Except.error () : Except Unit Bool)) "t" = Except.error () ∧
    getUniqueTableNameAux (fun _ : String => (Except.error () : Except Unit Bool))
      "t" (0 + 1) "t" 1 = some "t" :=
  ⟨rfl, (c9_resolver_terminates (fun _ => Except.error ()) "t" "t" 0 1 ⟨[]⟩).1 rfl⟩

/-- C10: with honest probes, an import only appends one fresh table — every
pre-existing table survives unchanged, because the DROP targets a name the
resolver verified absent; and when a probe errors, the fallback name can
collide with an existing table, which is then dropped (shown on a concrete
catalog where the committed `sales` table's data is destroyed). -/
theorem c10_import_preserves_existing_tables (db : DBState) (baseName : String)
    (headers : List String) (data : List Row) :
    (handleImportCsvV1 (honestProbe db) (fun _ => false) db baseName
        (some headers) data).db.tables =
      db.tables ++ [⟨getUniqueTableName (honestProbe db) db baseName,
        headers.map (fun h => ⟨h, "TEXT"⟩), data.map (bindRow headers)⟩] ∧
    (handleImportCsvV1 (fun _ => Except.error ()) (fun _ => false) salesDB "sales"
        (some ["b"]) []).db.tables = [⟨"sales", [⟨"b", "TEXT"⟩], []⟩] ∧
    (⟨"sales", [⟨"a", "TEXT"⟩], [[some "1"]]⟩ : Table) ∈ salesDB.tables ∧
    (⟨"sales", [⟨"a", "TEXT"⟩], [[some "1"]]⟩ : Table) ∉
      (handleImportCsvV1 (fun _ => Except.error ()) (fun _ => false) salesDB "sales"
        (some ["b"]) []).db.tables := by
  refine ⟨?_, by decide, by decide, by decide⟩
  rw [handleImportCsvV1_success db baseName headers data (fun _ => false) (fun _ => rfl)]

end XLSCSV2SQL
